import Mathlib

/-!
Formal verification of the notion-sync repository's core sync algorithm.

The Python sources (`notion_sync/database.py`, `notion_sync/sync.py`,
`notion_sync/git_ops.py`, `notion_sync/notion_client.py`) are shallowly
embedded: timestamps become `Nat`, the SQLite record store becomes a pure
`SyncDatabase` value (its storage engine is an excluded collaborator, so
only the CRUD semantics of `database.py` are modelled), the Notion API and
git are modelled as environments recording the outcome each external call
would produce, and the SHA-256 digest is an arbitrary function parameter
`hash : String → String` (every theorem holds for any digest function).
`Char.isAlphanum` models Python's `str.isalnum` on the ASCII range.
-/

namespace NotionSync

/-- A row of the `pages` table (`database.py`, `PageRecord`). -/
structure PageRecord where
  notion_id : String
  title : String
  parent_id : Option String
  content_hash : String
  last_edited : Nat
  last_synced : Nat
  status : String
  deriving DecidableEq, Repr

/-- A row of the `sync_log` table (`database.py`, `SCHEMA`): `sync_time`
is the insert-time `CURRENT_TIMESTAMP`. -/
structure SyncLogEntry where
  sync_time : Nat
  pages_synced : Nat
  direction : String
  status : String
  message : String
  deriving DecidableEq, Repr

/-- The persistent state managed by `SyncDatabase` in `database.py`. -/
structure SyncDatabase where
  pages : List PageRecord
  log : List SyncLogEntry
  deriving DecidableEq, Repr

/-- Model of `SyncDatabase.get_page`: `SELECT * FROM pages WHERE notion_id = ?`. -/
def get_page (db : SyncDatabase) (notion_id : String) : Option PageRecord :=
  db.pages.find? (fun r => r.notion_id == notion_id)

/-- Model of `SyncDatabase.upsert_page`: `INSERT ... ON CONFLICT(notion_id) DO UPDATE`,
i.e. replace the row with the same key in place, or append a new row. -/
def upsert_page (db : SyncDatabase) (page : PageRecord) : SyncDatabase :=
  if db.pages.any (fun r => r.notion_id == page.notion_id) then
    { db with
      pages := db.pages.map (fun r => if r.notion_id == page.notion_id then page else r) }
  else
    { db with pages := db.pages ++ [page] }

/-- Model of `SyncDatabase.needs_sync`: new page, changed hash, or strictly later
remote edit time. -/
def needs_sync (db : SyncDatabase) (notion_id : String) (last_edited : Nat)
    (content_hash : String) : Bool :=
  match get_page db notion_id with
  | none => true
  | some existing =>
    if existing.content_hash != content_hash then true
    else if existing.last_synced < last_edited then true
    else false

/-- Model of `SyncDatabase.log_sync`: durable append to `sync_log`; `now` stands for
the row's `CURRENT_TIMESTAMP`. -/
def log_sync (db : SyncDatabase) (now pages_synced : Nat)
    (direction status message : String) : SyncDatabase :=
  { db with log := db.log ++ [⟨now, pages_synced, direction, status, message⟩] }

/-- Model of `SyncDatabase.get_last_sync_time`:
`SELECT MAX(sync_time) FROM sync_log WHERE status = 'success'`,
`none` when no successful sync was ever logged. -/
def get_last_sync_time (db : SyncDatabase) : Option Nat :=
  ((db.log.filter (fun en => en.status == "success")).map SyncLogEntry.sync_time).foldl
    (fun acc t =>
      match acc with
      | none => some t
      | some m => some (max m t)) none

/-- A page summary as returned by `NotionClient.get_database_pages`
(`notion_client.py`, `NotionPage`; the `content` and `properties` fields are
never read by the orchestrator and are omitted). -/
structure NotionPage where
  id : String
  title : String
  parent_id : Option String
  last_edited : Nat
  url : String
  deriving DecidableEq, Repr

/-- The remote-source boundary for one run: the full page set of the Notion
database, the outcome `get_page_content` would produce for each page id, and
whether the listing request itself fails with a `NotionClientError`. -/
structure RemoteEnv where
  pages : List NotionPage
  fetchContent : String → Except String String
  listError : Option String

/-- Model of `NotionClient.get_database_pages(since)`: the server filters to pages
whose `last_edited_time` is strictly `after` the given timestamp; without
`since` the full page set is returned. -/
def get_database_pages (remote : RemoteEnv) (since : Option Nat) :
    Except String (List NotionPage) :=
  match remote.listError with
  | some e => Except.error e
  | none =>
    match since with
    | none => Except.ok remote.pages
    | some t => Except.ok (remote.pages.filter (fun p => t < p.last_edited))

/-- The version-control boundary for one run (`git_ops.py`): whether
`has_changes()` reports pending changes after the pull, and the outcomes of
`commit_sync` and `push`. -/
structure GitEnv where
  hasChanges : Bool
  commitResult : Except String String
  pushResult : Except String Unit

/-- Python `str.strip()` on a character list: whitespace removed from both
ends. -/
def pyStrip (s : List Char) : List Char :=
  ((s.dropWhile Char.isWhitespace).reverse.dropWhile Char.isWhitespace).reverse

/-- A character kept by the sanitizer in `NotionSync._write_page_file`:
`c.isalnum() or c in " -_"`. -/
def allowedChar (c : Char) : Bool :=
  c.isAlphanum || c == ' ' || c == '-' || c == '_'

/-- The `safe_title` computation of `NotionSync._write_page_file`:
keep allowed characters, strip, truncate to 50, fall back to `"untitled"`
when empty. -/
def sanitize_title (title : String) : String :=
  let truncated := (pyStrip (title.data.filter allowedChar)).take 50
  if truncated.isEmpty then "untitled" else String.mk truncated

/-- Python string slicing `s[:n]` (by code point). -/
def takeStr (n : Nat) (s : String) : String :=
  String.mk (s.data.take n)

/-- The filename built by `NotionSync._write_page_file`:
`f"{safe_title}_{page.id[:8]}.md"`. -/
def page_filename (page : NotionPage) : String :=
  sanitize_title page.title ++ "_" ++ takeStr 8 page.id ++ ".md"

/-- The frontmatter f-string of `NotionSync._write_page_file` (timestamps
rendered by `toString` in place of `isoformat()`). -/
def frontmatter (page : NotionPage) : String :=
  "---\nnotion_id: " ++ page.id ++ "\ntitle: " ++ page.title ++
    "\nlast_edited: " ++ toString page.last_edited ++ "\nurl: " ++ page.url ++
    "\n---\n\n"

/-- The full text written by `filepath.write_text(frontmatter + content)`. -/
def page_file_content (page : NotionPage) (content : String) : String :=
  frontmatter page ++ content

/-- Overwriting write into the pages directory, modelled as an association
list from filename to file text. -/
def setFile (files : List (String × String)) (name text : String) :
    List (String × String) :=
  (name, text) :: files.filter (fun kv => kv.1 != name)

/-- The mutable local state a run acts on: the record store plus the pages
directory. -/
structure SyncState where
  db : SyncDatabase
  files : List (String × String)
  deriving DecidableEq, Repr

/-- Model of `NotionSync._write_page_file`: writes the frontmatter plus content under
the derived filename. -/
def write_page_file (st : SyncState) (page : NotionPage) (content : String) :
    SyncState :=
  { st with
    files := setFile st.files (page_filename page) (page_file_content page content) }

/-- The `result` dict built by `NotionSync._pull_from_notion`. -/
structure PullResult where
  synced : Nat
  skipped : Nat
  errors : List String
  deriving DecidableEq, Repr

/-- One iteration of the per-page loop in `NotionSync._pull_from_notion`:
fetch content (errors are caught and recorded), hash it, consult
`needs_sync`, and either skip or write the file, upsert the record with
`last_synced = now`, and count the page as synced. -/
def process_page (remote : RemoteEnv) (hash : String → String) (now : Nat)
    (acc : SyncState × PullResult) (page : NotionPage) : SyncState × PullResult :=
  let st := acc.1
  let r := acc.2
  match remote.fetchContent page.id with
  | Except.error e =>
      (st, { r with errors := r.errors ++ ["Failed to sync " ++ page.id ++ ": " ++ e] })
  | Except.ok content =>
      let content_hash := hash content
      if needs_sync st.db page.id page.last_edited content_hash then
        let st1 := write_page_file st page content
        let record : PageRecord :=
          ⟨page.id, page.title, page.parent_id, content_hash, page.last_edited,
            now, "synced"⟩
        ({ st1 with db := upsert_page st1.db record },
          { r with synced := r.synced + 1 })
      else
        (st, { r with skipped := r.skipped + 1 })

/-- Model of `NotionSync._pull_from_notion`: incremental listing since the last
successful sync; a `NotionClientError` from the listing is caught and
recorded as the single error of an otherwise empty result; otherwise the
per-page loop runs over every candidate. -/
def pull_from_notion (remote : RemoteEnv) (hash : String → String) (now : Nat)
    (st : SyncState) : SyncState × PullResult :=
  match get_database_pages remote (get_last_sync_time st.db) with
  | Except.error e => (st, ⟨0, 0, ["Failed to fetch pages: " ++ e]⟩)
  | Except.ok pages => pages.foldl (process_page remote hash now) (st, ⟨0, 0, []⟩)

/-- The `SyncResult` dataclass of `sync.py`. -/
structure SyncResult where
  success : Bool
  direction : String
  pages_synced : Nat
  pages_skipped : Nat
  errors : List String
  commit_hash : Option String
  timestamp : Nat
  deriving DecidableEq, Repr

/-- The tail of `NotionSync.sync_now` shared by every non-raising path:
append one log entry (`success` when the error list is empty, else
`partial`) and build the returned `SyncResult`. -/
def finish_run (st : SyncState) (now : Nat) (pr : PullResult)
    (errors : List String) (commit : Option String) : SyncState × SyncResult :=
  let status := if errors.isEmpty then "success" else "partial"
  let message := String.intercalate "; " errors
  ({ st with db := log_sync st.db now pr.synced "pull" status message },
    ⟨errors.isEmpty, "pull", pr.synced, pr.skipped, errors, commit, now⟩)

/-- Model of `NotionSync.sync_now`: pull, then commit and push when the working tree
has changes (a push failure is appended to the error list; a commit failure
escapes to the outer handler, which logs `status=error` with zero pages and
returns a failed result), then log and return. -/
def sync_now (remote : RemoteEnv) (git : GitEnv) (hash : String → String)
    (push : Bool) (now : Nat) (st : SyncState) : SyncState × SyncResult :=
  let pulled := pull_from_notion remote hash now st
  let st1 := pulled.1
  let pr := pulled.2
  if git.hasChanges then
    match git.commitResult with
    | Except.error e =>
        ({ st1 with db := log_sync st1.db now 0 "pull" "error" e },
          ⟨false, "pull", 0, 0, [e], none, now⟩)
    | Except.ok commit_hash =>
        if push then
          match git.pushResult with
          | Except.error e =>
              finish_run st1 now pr (pr.errors ++ ["Push failed: " ++ e])
                (some commit_hash)
          | Except.ok _ => finish_run st1 now pr pr.errors (some commit_hash)
        else finish_run st1 now pr pr.errors (some commit_hash)
  else finish_run st1 now pr pr.errors none

/-- The header block described by the spec's file-layout sentence
(identifier, title, last-edited timestamp, source URL), without the trailing
blank line; defined from the spec's words to compare with the code's
`frontmatter`. -/
def header_block (page : NotionPage) : String :=
  "---\nnotion_id: " ++ page.id ++ "\ntitle: " ++ page.title ++
    "\nlast_edited: " ++ toString page.last_edited ++ "\nurl: " ++ page.url ++
    "\n---"

/-- Recognizer for the push-failure error message appended by `sync_now`:
the entry starts with the literal `"Push failed: "`. -/
def pushErrorMark (s : String) : Bool :=
  ("Push failed: " : String).data.isPrefixOf s.data

/-- Concrete scenario used for the idempotence analysis: one remote page
edited at time 0, constant content, a clean working tree, and an initially
empty local state. -/
def remoteC4 : RemoteEnv :=
  ⟨[⟨"aaa111", "Notes", none, 0, "u"⟩], fun _ => Except.ok "body", none⟩

/-- Git boundary for the idempotence scenario: no pending changes. -/
def gitC4 : GitEnv := ⟨false, Except.ok "h0", Except.ok ()⟩

/-- Empty initial state for the idempotence scenario. -/
def stC4 : SyncState := ⟨⟨[], []⟩, []⟩

/-- First run of the idempotence scenario, at time 1. -/
def runC4_1 : SyncState × SyncResult :=
  sync_now remoteC4 gitC4 (fun s => s) true 1 stC4

/-- Second run of the idempotence scenario, at time 2, with no remote
changes in between. -/
def runC4_2 : SyncState × SyncResult :=
  sync_now remoteC4 gitC4 (fun s => s) true 2 runC4_1.1

/-- Claim C1: `needs_sync(id, remoteLastEdited, newContentHash)` returns true
iff no record exists for the id, or the new content hash differs from the
stored one, or the remote edit time is strictly after the stored
`last_synced`; in particular it is true for unseen ids and false when a
record exists with an equal hash and `remoteLastEdited <= lastSynced`. -/
theorem C1_needs_sync_iff (db : SyncDatabase) (id : String) (last_edited : Nat)
    (h : String) :
    needs_sync db id last_edited h = true ↔
      (get_page db id = none ∨
        ∃ r, get_page db id = some r ∧
          (r.content_hash ≠ h ∨ r.last_synced < last_edited)) := by
  unfold needs_sync
  cases hg : get_page db id with
  | none => simp
  | some r =>
    simp only [Option.some.injEq, reduceCtorEq, false_or]
    constructor
    · intro ht
      by_cases hh : r.content_hash = h
      · refine ⟨r, rfl, Or.inr ?_⟩
        simp [hh, bne_self_eq_false] at ht
        by_contra hlt
        simp [hlt] at ht
      · exact ⟨r, rfl, Or.inl hh⟩
    · rintro ⟨r2, hr2, hcase⟩
      subst hr2
      rcases hcase with hh | hlt
      · simp [bne_iff_ne, hh]
      · by_cases hh : r.content_hash = h
        · simp [hh, hlt]
        · simp [bne_iff_ne, hh]

lemma mem_of_mem_dropWhile {α : Type} {p : α → Bool} {l : List α} {c : α}
    (hc : c ∈ l.dropWhile p) : c ∈ l :=
  (List.dropWhile_sublist p).subset hc

lemma mem_of_mem_pyStrip {l : List Char} {c : Char} (hc : c ∈ pyStrip l) :
    c ∈ l := by
  unfold pyStrip at hc
  rw [List.mem_reverse] at hc
  have h1 := mem_of_mem_dropWhile hc
  rw [List.mem_reverse] at h1
  exact mem_of_mem_dropWhile h1

lemma frontmatter_eq_header_block (page : NotionPage) :
    frontmatter page = header_block page ++ "\n\n" := by
  apply String.ext
  simp only [frontmatter, header_block, String.data_append, List.append_assoc]
  rfl

/-- Claim C8: the sanitized title contains only allowed characters, is
truncated to at most 50 characters, and falls back to the literal
`"untitled"` when sanitization leaves nothing; the written file is the
structured header block, a blank line, then the rendered content. -/
theorem C8_sanitize_and_layout (title : String) (page : NotionPage)
    (content : String) :
    (∀ c ∈ (sanitize_title title).data, allowedChar c = true) ∧
      (sanitize_title title).data.length ≤ 50 ∧
      (((pyStrip (title.data.filter allowedChar)).take 50).isEmpty = true →
        sanitize_title title = "untitled") ∧
      page_file_content page content = header_block page ++ "\n\n" ++ content := by
  refine ⟨?_, ?_, ?_, ?_⟩
  · intro c hc
    unfold sanitize_title at hc
    by_cases he : ((pyStrip (title.data.filter allowedChar)).take 50).isEmpty
    · rw [if_pos he] at hc
      have hall : ∀ d, d ∈ ("untitled" : String).data → allowedChar d = true := by
        decide
      exact hall c hc
    · rw [if_neg he] at hc
      have h1 : c ∈ (pyStrip (title.data.filter allowedChar)).take 50 := hc
      have h2 := mem_of_mem_pyStrip (List.take_subset 50 _ h1)
      exact (List.mem_filter.mp h2).2
  · unfold sanitize_title
    by_cases he : ((pyStrip (title.data.filter allowedChar)).take 50).isEmpty
    · rw [if_pos he]; decide
    · rw [if_neg he]
      have := List.length_take 50 (pyStrip (title.data.filter allowedChar))
      simp only [String.length_mk] at *
      omega
  · intro he
    unfold sanitize_title
    rw [if_pos he]
  · show frontmatter page ++ content = header_block page ++ "\n\n" ++ content
    rw [frontmatter_eq_header_block]

/-- Witness for C8 at a concrete title whose sanitization is empty, a
concrete page and concrete content. -/
theorem C8_witness :
    (∀ c ∈ (sanitize_title " !? ").data, allowedChar c = true) ∧
      (sanitize_title " !? ").data.length ≤ 50 ∧
      (((pyStrip (" !? ".data.filter allowedChar)).take 50).isEmpty = true →
        sanitize_title " !? " = "untitled") ∧
      page_file_content ⟨"a1", "T", none, 3, "u"⟩ "body" =
        header_block ⟨"a1", "T", none, 3, "u"⟩ ++ "\n\n" ++ "body" :=
  C8_sanitize_and_layout " !? " ⟨"a1", "T", none, 3, "u"⟩ "body"

/-- Claim C5 fails as stated: two pages with the same title and distinct
identifiers that agree on their first 8 characters receive the same
filename. -/
theorem C5_counterexample :
    ("aaaaaaaax" : String) ≠ "aaaaaaaay" ∧
      page_filename ⟨"aaaaaaaax", "Notes", none, 0, "u"⟩ =
        page_filename ⟨"aaaaaaaay", "Notes", none, 0, "u"⟩ := by
  decide

/-- Claim C5, amended: two pages with identical titles whose identifiers
differ within their first 8 characters produce distinct filenames. -/
theorem C5_amended (p1 p2 : NotionPage) (ht : p1.title = p2.title)
    (h8 : takeStr 8 p1.id ≠ takeStr 8 p2.id) :
    page_filename p1 ≠ page_filename p2 := by
  intro he
  apply h8
  unfold page_filename at he
  rw [ht] at he
  have hd := congrArg String.data he
  simp only [String.data_append] at hd
  exact String.ext (List.append_cancel_left (List.append_cancel_right hd))

/-- Witness for C5's amended statement at two concrete pages. -/
theorem C5_amended_witness :
    page_filename ⟨"abcdefgh1", "Notes", none, 0, "u"⟩ ≠
      page_filename ⟨"zbcdefgh2", "Notes", none, 0, "u"⟩ :=
  C5_amended ⟨"abcdefgh1", "Notes", none, 0, "u"⟩ ⟨"zbcdefgh2", "Notes", none, 0, "u"⟩
    rfl (by decide)

lemma upsert_page_log (db : SyncDatabase) (page : PageRecord) :
    (upsert_page db page).log = db.log := by
  unfold upsert_page
  split <;> rfl

lemma process_page_sync_eq (remote : RemoteEnv) (hash : String → String)
    (now : Nat) (st : SyncState) (r : PullResult) (page : NotionPage)
    (content : String) (hfetch : remote.fetchContent page.id = Except.ok content)
    (hns : needs_sync st.db page.id page.last_edited (hash content) = true) :
    process_page remote hash now (st, r) page =
      (⟨upsert_page st.db
          ⟨page.id, page.title, page.parent_id, hash content, page.last_edited,
            now, "synced"⟩,
        setFile st.files (page_filename page) (page_file_content page content)⟩,
        { r with synced := r.synced + 1 }) := by
  unfold process_page write_page_file
  rw [hfetch]
  simp [hns]

lemma process_page_skip_eq (remote : RemoteEnv) (hash : String → String)
    (now : Nat) (st : SyncState) (r : PullResult) (page : NotionPage)
    (content : String) (hfetch : remote.fetchContent page.id = Except.ok content)
    (hns : needs_sync st.db page.id page.last_edited (hash content) = false) :
    process_page remote hash now (st, r) page =
      (st, { r with skipped := r.skipped + 1 }) := by
  unfold process_page
  rw [hfetch]
  simp [hns]

lemma process_page_error_eq (remote : RemoteEnv) (hash : String → String)
    (now : Nat) (st : SyncState) (r : PullResult) (page : NotionPage)
    (e : String) (hfetch : remote.fetchContent page.id = Except.error e) :
    process_page remote hash now (st, r) page =
      (st, { r with
        errors := r.errors ++ ["Failed to sync " ++ page.id ++ ": " ++ e] }) := by
  unfold process_page
  rw [hfetch]

lemma process_page_log (remote : RemoteEnv) (hash : String → String) (now : Nat)
    (st : SyncState) (r : PullResult) (page : NotionPage) :
    ((process_page remote hash now (st, r) page).1).db.log = st.db.log := by
  unfold process_page write_page_file
  cases remote.fetchContent page.id with
  | error e => rfl
  | ok content =>
    by_cases hn : needs_sync st.db page.id page.last_edited (hash content)
    · simp [hn, upsert_page_log]
    · simp [hn]

lemma loop_log (remote : RemoteEnv) (hash : String → String) (now : Nat) :
    ∀ (pages : List NotionPage) (st : SyncState) (r : PullResult),
      ((pages.foldl (process_page remote hash now) (st, r)).1).db.log =
        st.db.log := by
  intro pages
  induction pages with
  | nil => intro st r; rfl
  | cons p tl ih =>
    intro st r
    rw [List.foldl_cons]
    rcases hpp : process_page remote hash now (st, r) p with ⟨stA, rA⟩
    have h1 := ih stA rA
    have h2 := process_page_log remote hash now st r p
    rw [hpp] at h2
    rw [h1, h2]

lemma pull_log (remote : RemoteEnv) (hash : String → String) (now : Nat)
    (st : SyncState) :
    ((pull_from_notion remote hash now st).1).db.log = st.db.log := by
  unfold pull_from_notion
  cases get_database_pages remote (get_last_sync_time st.db) with
  | error e => rfl
  | ok pages => exact loop_log remote hash now pages st ⟨0, 0, []⟩

lemma process_page_counts (remote : RemoteEnv) (hash : String → String)
    (now : Nat) (st : SyncState) (r : PullResult) (page : NotionPage) :
    ((process_page remote hash now (st, r) page).2).synced +
        ((process_page remote hash now (st, r) page).2).skipped +
        ((process_page remote hash now (st, r) page).2).errors.length =
      r.synced + r.skipped + r.errors.length + 1 := by
  unfold process_page
  cases remote.fetchContent page.id with
  | error e => simp; omega
  | ok content =>
    by_cases hn : needs_sync st.db page.id page.last_edited (hash content)
    · simp [hn]; omega
    · simp [hn]; omega

lemma loop_accounting (remote : RemoteEnv) (hash : String → String) (now : Nat) :
    ∀ (pages : List NotionPage) (st : SyncState) (r : PullResult),
      ((pages.foldl (process_page remote hash now) (st, r)).2).synced +
          ((pages.foldl (process_page remote hash now) (st, r)).2).skipped +
          ((pages.foldl (process_page remote hash now) (st, r)).2).errors.length =
        r.synced + r.skipped + r.errors.length + pages.length := by
  intro pages
  induction pages with
  | nil => intro st r; simp
  | cons p tl ih =>
    intro st r
    rw [List.foldl_cons]
    rcases hpp : process_page remote hash now (st, r) p with ⟨stA, rA⟩
    have h1 := ih stA rA
    have h2 := process_page_counts remote hash now st r p
    rw [hpp] at h2
    have h3 : rA.synced + rA.skipped + rA.errors.length =
        r.synced + r.skipped + r.errors.length + 1 := h2
    simp only [List.length_cons]
    omega

/-- Claim C10: a candidate whose `needs_sync` check is false is skipped
without any file write or record upsert — the state is unchanged and only
the skipped count grows. -/
theorem C10_skip_is_pure (remote : RemoteEnv) (hash : String → String)
    (now : Nat) (st : SyncState) (r : PullResult) (page : NotionPage)
    (content : String)
    (hfetch : remote.fetchContent page.id = Except.ok content)
    (hns : needs_sync st.db page.id page.last_edited (hash content) = false) :
    process_page remote hash now (st, r) page =
      (st, { r with skipped := r.skipped + 1 }) :=
  process_page_skip_eq remote hash now st r page content hfetch hns

/-- Witness for C10: a concrete page already recorded with the same content
hash and an edit time not later than `last_synced` is skipped in place. -/
theorem C10_witness :
    process_page ⟨[], fun _ => Except.ok "body", none⟩ (fun _ => "h1") 9
        (⟨⟨[⟨"a", "T", none, "h1", 5, 5, "synced"⟩], []⟩, []⟩, ⟨0, 0, []⟩)
        ⟨"a", "T", none, 4, "u"⟩ =
      (⟨⟨[⟨"a", "T", none, "h1", 5, 5, "synced"⟩], []⟩, []⟩, ⟨0, 1, []⟩) :=
  C10_skip_is_pure ⟨[], fun _ => Except.ok "body", none⟩ (fun _ => "h1") 9
    ⟨⟨[⟨"a", "T", none, "h1", 5, 5, "synced"⟩], []⟩, []⟩ ⟨0, 0, []⟩
    ⟨"a", "T", none, 4, "u"⟩ "body" rfl (by decide)

/-- Claim C9: over a successfully listed candidate set, every candidate is
accounted for exactly once — synced + skipped + loop errors equals the
number of candidates. -/
theorem C9_accounting (remote : RemoteEnv) (hash : String → String) (now : Nat)
    (st : SyncState) (pages : List NotionPage)
    (hlist : get_database_pages remote (get_last_sync_time st.db) =
      Except.ok pages) :
    ((pull_from_notion remote hash now st).2).synced +
        ((pull_from_notion remote hash now st).2).skipped +
        ((pull_from_notion remote hash now st).2).errors.length =
      pages.length := by
  unfold pull_from_notion
  rw [hlist]
  have h := loop_accounting remote hash now pages st ⟨0, 0, []⟩
  simpa using h

/-- Witness for C9: two candidates, one failing fetch — one synced plus one
error accounts for both. -/
theorem C9_witness :
    ((pull_from_notion
          ⟨[⟨"a", "T", none, 1, "u"⟩, ⟨"b", "U", none, 1, "u"⟩],
            fun id => if id == "b" then Except.error "x" else Except.ok "c",
            none⟩
          (fun s => s) 9 ⟨⟨[], []⟩, []⟩).2).synced +
        ((pull_from_notion
          ⟨[⟨"a", "T", none, 1, "u"⟩, ⟨"b", "U", none, 1, "u"⟩],
            fun id => if id == "b" then Except.error "x" else Except.ok "c",
            none⟩
          (fun s => s) 9 ⟨⟨[], []⟩, []⟩).2).skipped +
        ((pull_from_notion
          ⟨[⟨"a", "T", none, 1, "u"⟩, ⟨"b", "U", none, 1, "u"⟩],
            fun id => if id == "b" then Except.error "x" else Except.ok "c",
            none⟩
          (fun s => s) 9 ⟨⟨[], []⟩, []⟩).2).errors.length =
      ([⟨"a", "T", none, 1, "u"⟩, ⟨"b", "U", none, 1, "u"⟩] :
        List NotionPage).length :=
  C9_accounting
    ⟨[⟨"a", "T", none, 1, "u"⟩, ⟨"b", "U", none, 1, "u"⟩],
      fun id => if id == "b" then Except.error "x" else Except.ok "c", none⟩
    (fun s => s) 9 ⟨⟨[], []⟩, []⟩
    [⟨"a", "T", none, 1, "u"⟩, ⟨"b", "U", none, 1, "u"⟩] rfl

lemma intercalate_singleton (s x : String) : String.intercalate s [x] = x := rfl

lemma pull_list_error_eq (remote : RemoteEnv) (hash : String → String)
    (now : Nat) (st : SyncState) (e : String)
    (hlist : remote.listError = some e) :
    pull_from_notion remote hash now st =
      (st, ⟨0, 0, ["Failed to fetch pages: " ++ e]⟩) := by
  unfold pull_from_notion get_database_pages
  rw [hlist]

lemma finish_run_log (st : SyncState) (now : Nat) (pr : PullResult)
    (errors : List String) (commit : Option String) :
    ((finish_run st now pr errors commit).1).db.log =
      st.db.log ++
        [⟨now, pr.synced, "pull", if errors.isEmpty then "success" else "partial",
          String.intercalate "; " errors⟩] := rfl

lemma finish_run_pages (st : SyncState) (now : Nat) (pr : PullResult)
    (errors : List String) (commit : Option String) :
    ((finish_run st now pr errors commit).1).db.pages = st.db.pages := rfl

lemma finish_run_files (st : SyncState) (now : Nat) (pr : PullResult)
    (errors : List String) (commit : Option String) :
    ((finish_run st now pr errors commit).1).files = st.files := rfl

lemma finish_run_snd (st : SyncState) (now : Nat) (pr : PullResult)
    (errors : List String) (commit : Option String) :
    (finish_run st now pr errors commit).2 =
      ⟨errors.isEmpty, "pull", pr.synced, pr.skipped, errors, commit, now⟩ := rfl

/-- Claim C2 fails as stated: with a failing candidate listing, the log
entry status is `"partial"`, not `"error"`. -/
theorem C2_counterexample :
    ((sync_now ⟨[], fun _ => Except.error "x", some "boom"⟩
          ⟨false, Except.error "na", Except.error "na"⟩ (fun s => s) true 5
          ⟨⟨[], []⟩, []⟩).1).db.log =
        [⟨5, 0, "pull", "partial", "Failed to fetch pages: boom"⟩] ∧
      ("partial" : String) ≠ "error" ∧
      ((sync_now ⟨[], fun _ => Except.error "x", some "boom"⟩
          ⟨false, Except.error "na", Except.error "na"⟩ (fun s => s) true 5
          ⟨⟨[], []⟩, []⟩).2).success = false := by
  decide

/-- Claim C2, amended: when the candidate listing fails, no per-page
processing happens (records and files are untouched), the appended log
entry has zero pages and status `"partial"` (not `"error"`), and the
returned result is failed with zero counts and the single listing error;
the commit step is not skipped by the code, but with no pending
working-tree changes nothing else occurs. -/
theorem C2_amended (remote : RemoteEnv) (git : GitEnv) (hash : String → String)
    (pushFlag : Bool) (now : Nat) (st : SyncState) (e : String)
    (hlist : remote.listError = some e) (hgit : git.hasChanges = false) :
    ((sync_now remote git hash pushFlag now st).1).db.log =
        st.db.log ++
          [⟨now, 0, "pull", "partial", "Failed to fetch pages: " ++ e⟩] ∧
      ((sync_now remote git hash pushFlag now st).1).db.pages = st.db.pages ∧
      ((sync_now remote git hash pushFlag now st).1).files = st.files ∧
      (sync_now remote git hash pushFlag now st).2 =
        ⟨false, "pull", 0, 0, ["Failed to fetch pages: " ++ e], none, now⟩ := by
  have hpull := pull_list_error_eq remote hash now st e hlist
  have hsync : sync_now remote git hash pushFlag now st =
      finish_run st now ⟨0, 0, ["Failed to fetch pages: " ++ e]⟩
        ["Failed to fetch pages: " ++ e] none := by
    simp [sync_now, hpull, hgit]
  rw [hsync, finish_run_log, finish_run_pages, finish_run_files, finish_run_snd]
  simp [intercalate_singleton]

/-- Witness for C2's amended statement at a concrete failing listing. -/
theorem C2_amended_witness :
    ((sync_now ⟨[], fun _ => Except.error "x", some "down"⟩
          ⟨false, Except.ok "h", Except.ok ()⟩ (fun s => s) true 6
          ⟨⟨[], []⟩, []⟩).1).db.log =
        ([] : List SyncLogEntry) ++
          [⟨6, 0, "pull", "partial", "Failed to fetch pages: " ++ "down"⟩] ∧
      ((sync_now ⟨[], fun _ => Except.error "x", some "down"⟩
          ⟨false, Except.ok "h", Except.ok ()⟩ (fun s => s) true 6
          ⟨⟨[], []⟩, []⟩).1).db.pages = [] ∧
      ((sync_now ⟨[], fun _ => Except.error "x", some "down"⟩
          ⟨false, Except.ok "h", Except.ok ()⟩ (fun s => s) true 6
          ⟨⟨[], []⟩, []⟩).1).files = [] ∧
      (sync_now ⟨[], fun _ => Except.error "x", some "down"⟩
          ⟨false, Except.ok "h", Except.ok ()⟩ (fun s => s) true 6
          ⟨⟨[], []⟩, []⟩).2 =
        ⟨false, "pull", 0, 0, ["Failed to fetch pages: " ++ "down"], none, 6⟩ :=
  C2_amended ⟨[], fun _ => Except.error "x", some "down"⟩
    ⟨false, Except.ok "h", Except.ok ()⟩ (fun s => s) true 6 ⟨⟨[], []⟩, []⟩
    "down" rfl rfl

/-- Claim C7 fails as stated: a run whose per-page loop completes but whose
commit raises appends a log entry with status `"error"`, not `"partial"`,
although the run's error list is non-empty. -/
theorem C7_counterexample :
    ((sync_now ⟨[], fun _ => Except.error "x", none⟩
          ⟨true, Except.error "cfail", Except.ok ()⟩ (fun s => s) true 7
          ⟨⟨[], []⟩, []⟩).1).db.log =
        [⟨7, 0, "pull", "error", "cfail"⟩] ∧
      ((sync_now ⟨[], fun _ => Except.error "x", none⟩
          ⟨true, Except.error "cfail", Except.ok ()⟩ (fun s => s) true 7
          ⟨⟨[], []⟩, []⟩).2).errors ≠ [] ∧
      ("error" : String) ≠ "partial" := by
  decide

/-- Claim C7, amended: for every run whose commit step does not raise,
exactly one log entry is appended, its status is `"success"` when the
run's error list is empty and `"partial"` otherwise, its page count is the
synced count, and the result's success flag holds iff the error list is
empty. -/
theorem C7_amended (remote : RemoteEnv) (git : GitEnv) (hash : String → String)
    (pushFlag : Bool) (now : Nat) (st : SyncState)
    (hgit : git.hasChanges = false ∨ ∃ ch, git.commitResult = Except.ok ch) :
    ∃ entry : SyncLogEntry,
      ((sync_now remote git hash pushFlag now st).1).db.log =
          st.db.log ++ [entry] ∧
        entry.status =
          (if ((sync_now remote git hash pushFlag now st).2).errors.isEmpty
            then "success" else "partial") ∧
        entry.pages_synced =
          ((sync_now remote git hash pushFlag now st).2).pages_synced ∧
        (((sync_now remote git hash pushFlag now st).2).success = true ↔
          ((sync_now remote git hash pushFlag now st).2).errors = []) := by
  have hplog := pull_log remote hash now st
  have hmain : ∃ errors2 commit,
      sync_now remote git hash pushFlag now st =
        finish_run (pull_from_notion remote hash now st).1 now
          (pull_from_notion remote hash now st).2 errors2 commit := by
    rcases hgit with hnc | ⟨ch, hch⟩
    · exact ⟨(pull_from_notion remote hash now st).2.errors, none, by
        simp [sync_now, hnc]⟩
    · cases hhc : git.hasChanges with
      | false =>
        exact ⟨(pull_from_notion remote hash now st).2.errors, none, by
          simp [sync_now, hhc]⟩
      | true =>
        cases hpf : pushFlag with
        | false =>
          exact ⟨(pull_from_notion remote hash now st).2.errors, some ch, by
            simp [sync_now, hhc, hch, hpf]⟩
        | true =>
          cases hpr : git.pushResult with
          | error e =>
            exact ⟨(pull_from_notion remote hash now st).2.errors ++
              ["Push failed: " ++ e], some ch, by
                simp [sync_now, hhc, hch, hpf, hpr]⟩
          | ok u =>
            exact ⟨(pull_from_notion remote hash now st).2.errors, some ch, by
              simp [sync_now, hhc, hch, hpf, hpr]⟩
  obtain ⟨errors2, commit, heq⟩ := hmain
  rw [heq]
  refine ⟨⟨now, (pull_from_notion remote hash now st).2.synced, "pull",
    if errors2.isEmpty then "success" else "partial",
    String.intercalate "; " errors2⟩, ?_, ?_, ?_, ?_⟩
  · rw [finish_run_log, hplog]
  · rfl
  · rfl
  · rw [finish_run_snd]
    simp [List.isEmpty_iff]

/-- Witness for C7's amended statement at a concrete benign run. -/
theorem C7_amended_witness :
    ∃ entry : SyncLogEntry,
      ((sync_now ⟨[], fun _ => Except.ok "w", none⟩
            ⟨false, Except.ok "h", Except.ok ()⟩ (fun s => s) false 3
            ⟨⟨[], []⟩, []⟩).1).db.log =
          (⟨⟨[], []⟩, []⟩ : SyncState).db.log ++ [entry] ∧
        entry.status =
          (if ((sync_now ⟨[], fun _ => Except.ok "w", none⟩
              ⟨false, Except.ok "h", Except.ok ()⟩ (fun s => s) false 3
              ⟨⟨[], []⟩, []⟩).2).errors.isEmpty
            then "success" else "partial") ∧
        entry.pages_synced =
          ((sync_now ⟨[], fun _ => Except.ok "w", none⟩
              ⟨false, Except.ok "h", Except.ok ()⟩ (fun s => s) false 3
              ⟨⟨[], []⟩, []⟩).2).pages_synced ∧
        (((sync_now ⟨[], fun _ => Except.ok "w", none⟩
            ⟨false, Except.ok "h", Except.ok ()⟩ (fun s => s) false 3
            ⟨⟨[], []⟩, []⟩).2).success = true ↔
          ((sync_now ⟨[], fun _ => Except.ok "w", none⟩
            ⟨false, Except.ok "h", Except.ok ()⟩ (fun s => s) false 3
            ⟨⟨[], []⟩, []⟩).2).errors = []) :=
  C7_amended ⟨[], fun _ => Except.ok "w", none⟩ ⟨false, Except.ok "h", Except.ok ()⟩
    (fun s => s) false 3 ⟨⟨[], []⟩, []⟩ (Or.inl rfl)

lemma isPrefixOf_false_of_head_ne {a b : Char} (h : a ≠ b) (l1 l2 : List Char) :
    List.isPrefixOf (a :: l1) (b :: l2) = false := by
  simp [List.isPrefixOf, h]

lemma isPrefixOf_append_self (l m : List Char) :
    List.isPrefixOf l (l ++ m) = true := by
  induction l with
  | nil => simp [List.isPrefixOf]
  | cons a tl ih => simp [List.isPrefixOf, ih]

lemma pushmark_fetch (id msg : String) :
    pushErrorMark ("Failed to sync " ++ id ++ ": " ++ msg) = false := by
  unfold pushErrorMark
  rw [show ("Push failed: " : String).data =
    'P' :: ("ush failed: " : String).data from rfl]
  rw [String.data_append, String.data_append, String.data_append]
  rw [show ("Failed to sync " : String).data =
    'F' :: ("ailed to sync " : String).data from rfl]
  rw [List.cons_append, List.cons_append, List.cons_append]
  exact isPrefixOf_false_of_head_ne (by decide) _ _

lemma pushmark_list (msg : String) :
    pushErrorMark ("Failed to fetch pages: " ++ msg) = false := by
  unfold pushErrorMark
  rw [show ("Push failed: " : String).data =
    'P' :: ("ush failed: " : String).data from rfl]
  rw [String.data_append]
  rw [show ("Failed to fetch pages: " : String).data =
    'F' :: ("ailed to fetch pages: " : String).data from rfl]
  rw [List.cons_append]
  exact isPrefixOf_false_of_head_ne (by decide) _ _

lemma pushmark_push (e : String) :
    pushErrorMark ("Push failed: " ++ e) = true := by
  unfold pushErrorMark
  rw [String.data_append]
  exact isPrefixOf_append_self _ _

lemma process_page_errors_cases (remote : RemoteEnv) (hash : String → String)
    (now : Nat) (st : SyncState) (r : PullResult) (page : NotionPage) :
    ((process_page remote hash now (st, r) page).2).errors = r.errors ∨
      ∃ e, ((process_page remote hash now (st, r) page).2).errors =
        r.errors ++ ["Failed to sync " ++ page.id ++ ": " ++ e] := by
  unfold process_page
  cases remote.fetchContent page.id with
  | error e => right; exact ⟨e, rfl⟩
  | ok content =>
    by_cases hn : needs_sync st.db page.id page.last_edited (hash content)
    · left; simp [hn]
    · left; simp [hn]

lemma loop_errors_not_push (remote : RemoteEnv) (hash : String → String)
    (now : Nat) :
    ∀ (pages : List NotionPage) (st : SyncState) (r : PullResult),
      (∀ s ∈ r.errors, pushErrorMark s = false) →
      ∀ s ∈ ((pages.foldl (process_page remote hash now) (st, r)).2).errors,
        pushErrorMark s = false := by
  intro pages
  induction pages with
  | nil => intro st r h; simpa using h
  | cons p tl ih =>
    intro st r h
    rw [List.foldl_cons]
    rcases hpp : process_page remote hash now (st, r) p with ⟨stA, rA⟩
    apply ih stA rA
    have hc := process_page_errors_cases remote hash now st r p
    rw [hpp] at hc
    intro s hs
    rcases hc with hsame | ⟨e, happ⟩
    · have heq : rA.errors = r.errors := hsame
      rw [heq] at hs
      exact h s hs
    · have heq : rA.errors =
          r.errors ++ ["Failed to sync " ++ p.id ++ ": " ++ e] := happ
      rw [heq] at hs
      rcases List.mem_append.mp hs with h1 | h2
      · exact h s h1
      · have hseq : s = "Failed to sync " ++ p.id ++ ": " ++ e := by
          simpa using h2
        rw [hseq]
        exact pushmark_fetch p.id e

lemma pull_errors_not_push (remote : RemoteEnv) (hash : String → String)
    (now : Nat) (st : SyncState) :
    ∀ s ∈ ((pull_from_notion remote hash now st).2).errors,
      pushErrorMark s = false := by
  unfold pull_from_notion
  cases hls : get_database_pages remote (get_last_sync_time st.db) with
  | error e =>
    intro s hs
    have hseq : s = "Failed to fetch pages: " ++ e := by simpa using hs
    rw [hseq]
    exact pushmark_list e
  | ok pages =>
    exact loop_errors_not_push remote hash now pages st ⟨0, 0, []⟩
      (fun s hs => absurd hs (List.not_mem_nil s))

/-- Claim C6: when the commit succeeds and the push then fails, the result
still carries the commit identifier and the error list holds exactly one
push-related entry — the push failure does not undo the commit. -/
theorem C6_commit_push_independence (remote : RemoteEnv) (git : GitEnv)
    (hash : String → String) (now : Nat) (st : SyncState) (ch e : String)
    (hhc : git.hasChanges = true) (hcommit : git.commitResult = Except.ok ch)
    (hpush : git.pushResult = Except.error e) :
    ((sync_now remote git hash true now st).2).commit_hash = some ch ∧
      (((sync_now remote git hash true now st).2).errors).countP
        pushErrorMark = 1 := by
  have hsync : sync_now remote git hash true now st =
      finish_run (pull_from_notion remote hash now st).1 now
        (pull_from_notion remote hash now st).2
        ((pull_from_notion remote hash now st).2.errors ++ ["Push failed: " ++ e])
        (some ch) := by
    simp [sync_now, hhc, hcommit, hpush]
  rw [hsync, finish_run_snd]
  refine ⟨rfl, ?_⟩
  show (((pull_from_notion remote hash now st).2.errors ++
    ["Push failed: " ++ e]).countP pushErrorMark) = 1
  rw [List.countP_append]
  have h0 : ((pull_from_notion remote hash now st).2.errors).countP
      pushErrorMark = 0 := by
    rw [List.countP_eq_zero]
    intro s hs
    simp [pull_errors_not_push remote hash now st s hs]
  have h1 : (["Push failed: " ++ e] : List String).countP pushErrorMark = 1 := by
    simp [List.countP_cons, List.countP_nil, pushmark_push e]
  rw [h0, h1]

/-- Witness for C6 at a concrete run with a succeeding commit and a
refused push. -/
theorem C6_witness :
    ((sync_now ⟨[], fun _ => Except.ok "w", none⟩
          ⟨true, Except.ok "abc", Except.error "refused"⟩ (fun s => s) true 4
          ⟨⟨[], []⟩, []⟩).2).commit_hash = some "abc" ∧
      (((sync_now ⟨[], fun _ => Except.ok "w", none⟩
          ⟨true, Except.ok "abc", Except.error "refused"⟩ (fun s => s) true 4
          ⟨⟨[], []⟩, []⟩).2).errors).countP pushErrorMark = 1 :=
  C6_commit_push_independence ⟨[], fun _ => Except.ok "w", none⟩
    ⟨true, Except.ok "abc", Except.error "refused"⟩ (fun s => s) 4
    ⟨⟨[], []⟩, []⟩ "abc" "refused" rfl rfl rfl

lemma find_replace_ne (l : List PageRecord) (rec : PageRecord) (q : String)
    (h : rec.notion_id ≠ q) :
    (l.map (fun x => if x.notion_id == rec.notion_id then rec else x)).find?
        (fun x => x.notion_id == q) =
      l.find? (fun x => x.notion_id == q) := by
  induction l with
  | nil => rfl
  | cons x tl ih =>
    simp only [List.map_cons]
    by_cases hx : x.notion_id == rec.notion_id
    · rw [if_pos hx]
      have hxid : x.notion_id = rec.notion_id := by simpa using hx
      have h1 : (rec.notion_id == q) = false := by simpa using h
      have h2 : (x.notion_id == q) = false := by simp [hxid]; simpa using h
      rw [List.find?_cons_of_neg, List.find?_cons_of_neg, ih] <;>
        simp [h1, h2]
    · rw [if_neg hx]
      by_cases hq : x.notion_id == q
      · rw [List.find?_cons_of_pos, List.find?_cons_of_pos] <;> simp [hq]
      · rw [List.find?_cons_of_neg, List.find?_cons_of_neg, ih] <;> simp [hq]

lemma get_page_upsert_ne (db : SyncDatabase) (rec : PageRecord) (q : String)
    (h : rec.notion_id ≠ q) :
    get_page (upsert_page db rec) q = get_page db q := by
  unfold get_page upsert_page
  by_cases ha : db.pages.any (fun r => r.notion_id == rec.notion_id)
  · rw [if_pos ha]
    exact find_replace_ne db.pages rec q h
  · rw [if_neg ha]
    show (db.pages ++ [rec]).find? (fun x => x.notion_id == q) = _
    rw [List.find?_append]
    have hnone : ([rec] : List PageRecord).find? (fun x => x.notion_id == q) =
        none := by
      have h1 : (rec.notion_id == q) = false := by simpa using h
      simp [List.find?, h1]
    rw [hnone]
    simp

lemma needs_sync_congr {db1 db2 : SyncDatabase} (id : String) (t : Nat)
    (hsh : String) (h : get_page db1 id = get_page db2 id) :
    needs_sync db1 id t hsh = needs_sync db2 id t hsh := by
  unfold needs_sync
  rw [h]

lemma loop_good (remote : RemoteEnv) (hash : String → String) (now : Nat) :
    ∀ (l : List NotionPage) (st : SyncState) (r : PullResult),
      (∀ p ∈ l, ∃ c, remote.fetchContent p.id = Except.ok c ∧
          needs_sync st.db p.id p.last_edited (hash c) = true) →
      (l.map NotionPage.id).Nodup →
      ((l.foldl (process_page remote hash now) (st, r)).2.synced =
          r.synced + l.length ∧
        (l.foldl (process_page remote hash now) (st, r)).2.skipped = r.skipped ∧
        (l.foldl (process_page remote hash now) (st, r)).2.errors = r.errors ∧
        ∀ q, q ∉ l.map NotionPage.id →
          get_page ((l.foldl (process_page remote hash now) (st, r)).1).db q =
            get_page st.db q) := by
  intro l
  induction l with
  | nil =>
    intro st r hgood hnd
    simp
  | cons p tl ih =>
    intro st r hgood hnd
    obtain ⟨c, hfetch, hns⟩ := hgood p (List.mem_cons_self p tl)
    rw [List.foldl_cons]
    rcases hpp : process_page remote hash now (st, r) p with ⟨stA, rA⟩
    have hlit := process_page_sync_eq remote hash now st r p c hfetch hns
    rw [hpp] at hlit
    have hstA : stA = ⟨upsert_page st.db
        ⟨p.id, p.title, p.parent_id, hash c, p.last_edited, now, "synced"⟩,
      setFile st.files (page_filename p) (page_file_content p c)⟩ :=
      congrArg Prod.fst hlit
    have hrA : rA = { r with synced := r.synced + 1 } := congrArg Prod.snd hlit
    rw [List.map_cons] at hnd
    have hpid : p.id ∉ tl.map NotionPage.id := (List.nodup_cons.mp hnd).1
    have hndtl : (tl.map NotionPage.id).Nodup := (List.nodup_cons.mp hnd).2
    have hpre : ∀ q, q ≠ p.id → get_page stA.db q = get_page st.db q := by
      intro q hq
      rw [hstA]
      exact get_page_upsert_ne st.db _ q (Ne.symm hq)
    have hgood2 : ∀ p2 ∈ tl, ∃ c2, remote.fetchContent p2.id = Except.ok c2 ∧
        needs_sync stA.db p2.id p2.last_edited (hash c2) = true := by
      intro p2 hp2
      obtain ⟨c2, hf2, hn2⟩ := hgood p2 (List.mem_cons_of_mem p hp2)
      refine ⟨c2, hf2, ?_⟩
      have hne : p2.id ≠ p.id := by
        intro heq
        exact hpid (heq ▸ List.mem_map_of_mem NotionPage.id hp2)
      rw [needs_sync_congr p2.id p2.last_edited (hash c2) (hpre p2.id hne)]
      exact hn2
    obtain ⟨hs, hk, he, hqs⟩ := ih stA rA hgood2 hndtl
    refine ⟨?_, ?_, ?_, ?_⟩
    · rw [hs, hrA]
      simp [List.length_cons]
      omega
    · rw [hk, hrA]
    · rw [he, hrA]
    · intro q hq2
      have hq2a : q ≠ p.id ∧ q ∉ tl.map NotionPage.id := by
        simpa [not_or] using hq2
      rw [hqs q hq2a.2, hpre q hq2a.1]

lemma sync_now_benign (remote : RemoteEnv) (git : GitEnv)
    (hash : String → String) (pushFlag : Bool) (now : Nat) (st : SyncState)
    (ch : String) (hcommit : git.commitResult = Except.ok ch)
    (hpush : git.pushResult = Except.ok ()) :
    sync_now remote git hash pushFlag now st =
      finish_run (pull_from_notion remote hash now st).1 now
        (pull_from_notion remote hash now st).2
        ((pull_from_notion remote hash now st).2).errors
        (if git.hasChanges then some ch else none) := by
  cases hhc : git.hasChanges with
  | false => simp [sync_now, hhc]
  | true =>
    cases hpf : pushFlag with
    | false => simp [sync_now, hhc, hcommit, hpf]
    | true => simp [sync_now, hhc, hcommit, hpf, hpush]

/-- Claim C3: with one failing fetch among the candidates and every other
candidate fetched and written successfully, the run is not aborted — the
result reports N-1 synced pages, exactly one error, and overall failure. -/
theorem C3_isolation (remote : RemoteEnv) (git : GitEnv)
    (hash : String → String) (pushFlag : Bool) (now : Nat) (st : SyncState)
    (l1 l2 : List NotionPage) (bad : NotionPage) (ch : String)
    (hlist : get_database_pages remote (get_last_sync_time st.db) =
      Except.ok (l1 ++ bad :: l2))
    (hnodup : ((l1 ++ bad :: l2).map NotionPage.id).Nodup)
    (hbad : ∃ e, remote.fetchContent bad.id = Except.error e)
    (hgood : ∀ p ∈ l1 ++ l2, ∃ c, remote.fetchContent p.id = Except.ok c ∧
        needs_sync st.db p.id p.last_edited (hash c) = true)
    (hcommit : git.commitResult = Except.ok ch)
    (hpush : git.pushResult = Except.ok ()) :
    ((sync_now remote git hash pushFlag now st).2).pages_synced =
        (l1 ++ bad :: l2).length - 1 ∧
      ((sync_now remote git hash pushFlag now st).2).errors.length = 1 ∧
      ((sync_now remote git hash pushFlag now st).2).success = false := by
  obtain ⟨e, hbe⟩ := hbad
  -- decompose the Nodup hypothesis
  rw [List.map_append, List.map_cons] at hnodup
  have hnd3 := List.nodup_append.mp hnodup
  have hnd1 : (l1.map NotionPage.id).Nodup := hnd3.1
  have hnd2 : (l2.map NotionPage.id).Nodup := (List.nodup_cons.mp hnd3.2.1).2
  have hdisj : (l1.map NotionPage.id).Disjoint
      (bad.id :: l2.map NotionPage.id) := hnd3.2.2
  -- stage 1: the prefix of successfully written pages
  have hgood1 : ∀ p ∈ l1, ∃ c, remote.fetchContent p.id = Except.ok c ∧
      needs_sync st.db p.id p.last_edited (hash c) = true :=
    fun p hp => hgood p (List.mem_append.mpr (Or.inl hp))
  obtain ⟨hs1, hk1, he1, hq1⟩ := loop_good remote hash now l1 st ⟨0, 0, []⟩
    hgood1 hnd1
  rcases hm : l1.foldl (process_page remote hash now) (st, ⟨0, 0, []⟩)
    with ⟨stM, rM⟩
  rw [hm] at hs1 hk1 he1 hq1
  have hrM1 : rM.synced = 0 + l1.length := hs1
  have hrM3 : rM.errors = [] := he1
  -- stage 2 and 3: the failing page, then the suffix
  have hpull : pull_from_notion remote hash now st =
      l2.foldl (process_page remote hash now)
        (stM, { rM with
          errors := rM.errors ++ ["Failed to sync " ++ bad.id ++ ": " ++ e] }) := by
    unfold pull_from_notion
    rw [hlist]
    show (l1 ++ bad :: l2).foldl (process_page remote hash now)
      (st, ⟨0, 0, []⟩) = _
    rw [List.foldl_append, hm, List.foldl_cons,
      process_page_error_eq remote hash now stM rM bad e hbe]
  have hgood2 : ∀ p ∈ l2, ∃ c, remote.fetchContent p.id = Except.ok c ∧
      needs_sync stM.db p.id p.last_edited (hash c) = true := by
    intro p hp
    obtain ⟨c2, hf2, hn2⟩ := hgood p (List.mem_append.mpr (Or.inr hp))
    refine ⟨c2, hf2, ?_⟩
    have hnotin : p.id ∉ l1.map NotionPage.id := by
      intro hin
      exact hdisj hin
        (List.mem_cons_of_mem bad.id (List.mem_map_of_mem NotionPage.id hp))
    have hgp : get_page stM.db p.id = get_page st.db p.id := hq1 p.id hnotin
    rw [needs_sync_congr p.id p.last_edited (hash c2) hgp]
    exact hn2
  obtain ⟨hs2, hk2, he2, hq2⟩ := loop_good remote hash now l2 stM
    { rM with errors := rM.errors ++ ["Failed to sync " ++ bad.id ++ ": " ++ e] }
    hgood2 hnd2
  -- fields of the pull result
  have hsy : ((pull_from_notion remote hash now st).2).synced =
      rM.synced + l2.length := by rw [hpull]; exact hs2
  have herr : ((pull_from_notion remote hash now st).2).errors =
      rM.errors ++ ["Failed to sync " ++ bad.id ++ ": " ++ e] := by
    rw [hpull]; exact he2
  -- wrap in sync_now
  rw [sync_now_benign remote git hash pushFlag now st ch hcommit hpush,
    finish_run_snd]
  refine ⟨?_, ?_, ?_⟩
  · show ((pull_from_notion remote hash now st).2).synced =
      (l1 ++ bad :: l2).length - 1
    rw [hsy, hrM1]
    simp [List.length_append, List.length_cons]
  · show ((pull_from_notion remote hash now st).2).errors.length = 1
    rw [herr, hrM3]
    rfl
  · show ((pull_from_notion remote hash now st).2).errors.isEmpty = false
    rw [herr, hrM3]
    rfl

/-- Witness for C3: two candidates where the second fetch fails — one page
synced, one error, failed result. -/
theorem C3_witness :
    ((sync_now
          ⟨[⟨"a", "T", none, 1, "u"⟩, ⟨"b", "U", none, 1, "v"⟩],
            fun id => if id == "b" then Except.error "x" else Except.ok "c",
            none⟩
          ⟨false, Except.ok "h", Except.ok ()⟩ (fun s => s) true 9
          ⟨⟨[], []⟩, []⟩).2).pages_synced =
        (([⟨"a", "T", none, 1, "u"⟩] : List NotionPage) ++
          (⟨"b", "U", none, 1, "v"⟩ : NotionPage) ::
          ([] : List NotionPage)).length - 1 ∧
      ((sync_now
          ⟨[⟨"a", "T", none, 1, "u"⟩, ⟨"b", "U", none, 1, "v"⟩],
            fun id => if id == "b" then Except.error "x" else Except.ok "c",
            none⟩
          ⟨false, Except.ok "h", Except.ok ()⟩ (fun s => s) true 9
          ⟨⟨[], []⟩, []⟩).2).errors.length = 1 ∧
      ((sync_now
          ⟨[⟨"a", "T", none, 1, "u"⟩, ⟨"b", "U", none, 1, "v"⟩],
            fun id => if id == "b" then Except.error "x" else Except.ok "c",
            none⟩
          ⟨false, Except.ok "h", Except.ok ()⟩ (fun s => s) true 9
          ⟨⟨[], []⟩, []⟩).2).success = false :=
  C3_isolation
    ⟨[⟨"a", "T", none, 1, "u"⟩, ⟨"b", "U", none, 1, "v"⟩],
      fun id => if id == "b" then Except.error "x" else Except.ok "c", none⟩
    ⟨false, Except.ok "h", Except.ok ()⟩ (fun s => s) true 9 ⟨⟨[], []⟩, []⟩
    [⟨"a", "T", none, 1, "u"⟩] [] ⟨"b", "U", none, 1, "v"⟩ "h"
    rfl (by decide) ⟨"x", rfl⟩
    (by
      intro p hp
      simp at hp
      subst hp
      exact ⟨"c", rfl, by decide⟩)
    rfl rfl

lemma intercalate_nil (s : String) : String.intercalate s [] = "" := rfl

lemma finish_run_db (st : SyncState) (now : Nat) (pr : PullResult)
    (errors : List String) (commit : Option String) :
    ((finish_run st now pr errors commit).1).db =
      log_sync st.db now pr.synced "pull"
        (if errors.isEmpty then "success" else "partial")
        (String.intercalate "; " errors) := rfl

lemma loop_errors_eq (remote : RemoteEnv) (hash : String → String) (now : Nat) :
    ∀ (pages : List NotionPage) (st : SyncState) (r : PullResult),
      (∀ p ∈ pages, ∃ c, remote.fetchContent p.id = Except.ok c) →
      ((pages.foldl (process_page remote hash now) (st, r)).2).errors =
        r.errors := by
  intro pages
  induction pages with
  | nil => intro st r h; rfl
  | cons p tl ih =>
    intro st r h
    obtain ⟨c, hf⟩ := h p (List.mem_cons_self p tl)
    rw [List.foldl_cons]
    rcases hpp : process_page remote hash now (st, r) p with ⟨stA, rA⟩
    have htl := ih stA rA (fun p2 hp2 => h p2 (List.mem_cons_of_mem p hp2))
    rw [htl]
    by_cases hn : needs_sync st.db p.id p.last_edited (hash c) = true
    · have hlit := process_page_sync_eq remote hash now st r p c hf hn
      rw [hpp] at hlit
      have hrA : rA = { r with synced := r.synced + 1 } :=
        congrArg Prod.snd hlit
      rw [hrA]
    · have hlit := process_page_skip_eq remote hash now st r p c hf
        (by simpa using hn)
      rw [hpp] at hlit
      have hrA : rA = { r with skipped := r.skipped + 1 } :=
        congrArg Prod.snd hlit
      rw [hrA]

lemma pull_no_errors (remote : RemoteEnv) (hash : String → String) (now : Nat)
    (st : SyncState) (hlist : remote.listError = none)
    (hfetch : ∀ p ∈ remote.pages, ∃ c, remote.fetchContent p.id = Except.ok c) :
    ((pull_from_notion remote hash now st).2).errors = [] := by
  unfold pull_from_notion get_database_pages
  rw [hlist]
  cases hls : get_last_sync_time st.db with
  | none => exact loop_errors_eq remote hash now remote.pages st ⟨0, 0, []⟩ hfetch
  | some t =>
    exact loop_errors_eq remote hash now
      (remote.pages.filter (fun p => t < p.last_edited)) st ⟨0, 0, []⟩
      (fun p hp => hfetch p (List.mem_of_mem_filter hp))

lemma foldl_opt_max_le (T : Nat) :
    ∀ (ts : List Nat), (∀ t ∈ ts, t ≤ T) → ∀ (acc : Option Nat),
      (acc = none ∨ ∃ m, acc = some m ∧ m ≤ T) →
      (ts.foldl (fun a t =>
          match a with
          | none => some t
          | some m => some (max m t)) acc = none ∨
        ∃ m, ts.foldl (fun a t =>
          match a with
          | none => some t
          | some m => some (max m t)) acc = some m ∧ m ≤ T) := by
  intro ts
  induction ts with
  | nil => intro h acc hacc; simpa using hacc
  | cons t tl ih =>
    intro h acc hacc
    rw [List.foldl_cons]
    apply ih (fun x hx => h x (List.mem_cons_of_mem t hx))
    rcases hacc with h0 | ⟨m, hm, hle⟩
    · subst h0
      right
      exact ⟨t, rfl, h t (List.mem_cons_self t tl)⟩
    · subst hm
      right
      refine ⟨max m t, rfl, ?_⟩
      exact Nat.max_le.mpr ⟨hle, h t (List.mem_cons_self t tl)⟩

lemma get_last_sync_time_append_success (db : SyncDatabase) (now ps : Nat)
    (msg : String) (h : ∀ en ∈ db.log, en.sync_time ≤ now) :
    get_last_sync_time (log_sync db now ps "pull" "success" msg) = some now := by
  unfold get_last_sync_time log_sync
  simp only [List.filter_append, List.map_append, List.foldl_append]
  have hone : List.filter (fun en => en.status == "success")
      ([⟨now, ps, "pull", "success", msg⟩] : List SyncLogEntry) =
      [⟨now, ps, "pull", "success", msg⟩] := rfl
  rw [hone]
  simp only [List.map_cons, List.map_nil, List.foldl_cons, List.foldl_nil]
  have hts : ∀ t ∈ (List.filter (fun en => en.status == "success")
      db.log).map SyncLogEntry.sync_time, t ≤ now := by
    intro t ht
    obtain ⟨en, hen, hteq⟩ := List.mem_map.mp ht
    rw [← hteq]
    exact h en (List.mem_filter.mp hen).1
  have haux := foldl_opt_max_le now
    ((List.filter (fun en => en.status == "success") db.log).map
      SyncLogEntry.sync_time) hts none (Or.inl rfl)
  rcases haux with h0 | ⟨m, hm, hle⟩
  · rw [h0]
  · rw [hm]
    simp [Nat.max_eq_right hle]

/-- Claim C4 fails as stated: in the one-page scenario the first run syncs
one page; the second run, with no remote changes, reports zero synced but
also zero skipped — not the count of previously synced pages — because the
incremental listing filters the page out. -/
theorem C4_counterexample :
    runC4_1.2.pages_synced = 1 ∧
      runC4_2.2.pages_synced = 0 ∧
      runC4_2.2.pages_skipped = 0 ∧
      runC4_2.2.pages_skipped ≠ runC4_1.2.pages_synced := by
  decide

/-- Claim C4, amended: a second run immediately after a fully successful
run with no remote changes reports zero synced and zero skipped pages —
the previously synced pages are excluded from the candidate list by the
since-filter, rather than being listed and skipped. -/
theorem C4_amended (remote : RemoteEnv) (git1 git2 : GitEnv)
    (hash : String → String) (push1 push2 : Bool) (now1 now2 : Nat)
    (st : SyncState) (ch : String)
    (hlog : ∀ en ∈ st.db.log, en.sync_time ≤ now1)
    (hpages : ∀ p ∈ remote.pages, p.last_edited ≤ now1)
    (hlist : remote.listError = none)
    (hfetch : ∀ p ∈ remote.pages, ∃ c, remote.fetchContent p.id = Except.ok c)
    (hcommit : git1.commitResult = Except.ok ch)
    (hpush : git1.pushResult = Except.ok ()) :
    ((sync_now remote git2 hash push2 now2
        (sync_now remote git1 hash push1 now1 st).1).2).pages_synced = 0 ∧
      ((sync_now remote git2 hash push2 now2
        (sync_now remote git1 hash push1 now1 st).1).2).pages_skipped = 0 := by
  have hperr := pull_no_errors remote hash now1 st hlist hfetch
  have h1 := sync_now_benign remote git1 hash push1 now1 st ch hcommit hpush
  have hst1db : ((sync_now remote git1 hash push1 now1 st).1).db =
      log_sync ((pull_from_notion remote hash now1 st).1).db now1
        ((pull_from_notion remote hash now1 st).2).synced "pull" "success"
        "" := by
    rw [h1, finish_run_db, hperr]
    simp [intercalate_nil]
  have hlast : get_last_sync_time
      ((sync_now remote git1 hash push1 now1 st).1).db = some now1 := by
    rw [hst1db]
    apply get_last_sync_time_append_success
    rw [pull_log]
    exact hlog
  have hcand : get_database_pages remote (some now1) = Except.ok [] := by
    unfold get_database_pages
    rw [hlist]
    show Except.ok (remote.pages.filter (fun p => now1 < p.last_edited)) =
      Except.ok ([] : List NotionPage)
    have hnil : remote.pages.filter (fun p => now1 < p.last_edited) = [] := by
      rw [List.filter_eq_nil_iff]
      intro p hp
      have := hpages p hp
      simp
      omega
    rw [hnil]
  have hpull2 : pull_from_notion remote hash now2
      ((sync_now remote git1 hash push1 now1 st).1) =
      ((sync_now remote git1 hash push1 now1 st).1, ⟨0, 0, []⟩) := by
    unfold pull_from_notion
    rw [hlast, hcand]
    rfl
  set st1 := (sync_now remote git1 hash push1 now1 st).1 with hst1def
  cases hhc : git2.hasChanges with
  | false => constructor <;> simp [sync_now, hhc, hpull2, finish_run]
  | true =>
    cases hcr : git2.commitResult with
    | error e2 => constructor <;> simp [sync_now, hhc, hcr, hpull2]
    | ok ch2 =>
      cases hpf : push2 with
      | false =>
        constructor <;> simp [sync_now, hhc, hcr, hpf, hpull2, finish_run]
      | true =>
        cases hpr : git2.pushResult with
        | error e2 =>
          constructor <;>
            simp [sync_now, hhc, hcr, hpf, hpr, hpull2, finish_run]
        | ok u =>
          constructor <;>
            simp [sync_now, hhc, hcr, hpf, hpr, hpull2, finish_run]

/-- Witness for C4's amended statement on the concrete one-page scenario. -/
theorem C4_amended_witness :
    runC4_2.2.pages_synced = 0 ∧ runC4_2.2.pages_skipped = 0 :=
  C4_amended remoteC4 gitC4 gitC4 (fun s => s) true true 1 2 stC4 "h0"
    (fun en hen => absurd hen (List.not_mem_nil en))
    (by decide) rfl
    (fun p hp => ⟨"body", rfl⟩)
    rfl rfl

end NotionSync
